import Mathlib

/-!
# sergw — a serial-to-TCP bridge: shallow embedding and verification

This file embeds, in Lean, the core data structures and control loops of the
`sergw` gateway and proves the specification claims about them.

Sources embedded (the gateway implementation in `src/net/server.rs` is the
full-featured variant described by the specification — it carries the 200 ms
bounded waits, the reconnection routine, the connection events, the counters —
and is the one embedded here; `src/server.rs` is an earlier reduced variant):

* `src/state.rs`        — `SharedState`: the broadcast registry over a
  concurrent map from peer address to a bounded outbound-queue sender
  (`insert`, `remove`, `dispose`, `broadcast`).
* `src/serial.rs`       — `decide_port`, `SerialSelectError`.
* `src/main.rs`         — `exit_code_for_error`, `print_ports`.
* `src/cli.rs`          — the `Listen` options and their clap defaults.
* `src/net/server.rs`   — the serial reader loop, the serial writer loop with
  its reconnection routine, per-connection queue creation, the per-connection
  supervisor thread, and the two byte counters.

Modelling conventions: byte buffers are `List Nat`; peer addresses are
`String`; the concurrent map is an association list with unique keys (the
`DashMap` invariant); bounded channels are capacity-plus-contents records; the
`u64` counters are `Nat` reduced mod `2 ^ 64` exactly where the code uses
wrapping `fetch_add`; the event-driven loops are step functions over explicit
traces of observed events (queue receive outcomes, device read/open outcomes,
stop-flag observations), producing the list of externally visible actions.
-/

/-! ## Data model: addresses, buffers, bounded outbound queues -/

/-- Peer address (models `std::net::SocketAddr`, used only as a map key and in
event strings). -/
abbrev Addr := String

/-- A byte buffer (models `bytes::Bytes`, an immutable chunk of bytes). -/
abbrev Buf := List Nat

/-- The sending side of one connection's bounded outbound queue, as the
broadcast path observes it: the queue capacity (`channel::bounded(cap)`), the
buffers currently enqueued, and whether the receiving side is still alive
(models `crossbeam_channel::Sender<Bytes>`). -/
structure Conn where
  cap : Nat
  q : List Buf
  connected : Bool
deriving DecidableEq, Repr

/-- Outcome of `crossbeam_channel::Sender::try_send`. -/
inductive SendRes where
  | ok (c : Conn)
  | full
  | disconnected
deriving DecidableEq, Repr

/-- `tx.try_send(data)`: fails with `Disconnected` when the receiver is gone,
with `Full` when the queue holds `cap` items, and otherwise enqueues at the
back of the queue. -/
def trySend (c : Conn) (b : Buf) : SendRes :=
  if c.connected = false then .disconnected
  else if c.cap ≤ c.q.length then .full
  else .ok { c with q := c.q ++ [b] }

/-! ## `src/state.rs` — the broadcast registry (`SharedState`)

`SharedState.tcp_connections : DashMap<SocketAddr, Sender<Bytes>>` is modelled
as an association list with unique keys (`keysNodup`), the invariant the
`DashMap` maintains. -/

/-- The registry state: the entries of `tcp_connections`. -/
abbrev Registry := List (Addr × Conn)

/-- `DashMap` key uniqueness: at most one record per peer address. -/
def keysNodup (st : Registry) : Prop := (st.map Prod.fst).Nodup

/-- `tcp_connections.get(&a)` — lookup by peer address. -/
def lookupConn : Registry → Addr → Option Conn
  | [], _ => none
  | (k, c) :: rest, a => if k = a then some c else lookupConn rest a

/-- `SharedState::insert(addr, tx)`: `DashMap::insert` replaces the value if
the key is present and otherwise adds a fresh entry. -/
def insertConn (st : Registry) (a : Addr) (c : Conn) : Registry :=
  if lookupConn st a = none then st ++ [(a, c)]
  else st.map (fun e => if e.1 = a then (a, c) else e)

/-- `SharedState::remove(addr)`: `DashMap::remove` drops the entry for the
key, if present. -/
def removeConn : Registry → Addr → Registry
  | [], _ => []
  | (k, c) :: rest, a => if k = a then removeConn rest a else (k, c) :: removeConn rest a

/-- `SharedState::dispose()`: `tcp_connections.clear()`. -/
def disposeConns (_st : Registry) : Registry := []

/-- The body of the `for (addr, tx) in snapshot` loop inside
`SharedState::broadcast`: walk the snapshot in iteration order, attempt a
non-blocking `try_send` of the buffer into each connection's queue, and
collect into `to_remove` (in iteration order) every address whose send came
back `Full` or `Disconnected`.  Returns the entries with their updated queues
together with `to_remove`. -/
def broadcastPass : Registry → Buf → Registry × List Addr
  | [], _ => ([], [])
  | (a, c) :: rest, b =>
    let r := broadcastPass rest b
    match trySend c b with
    | .ok c2 => ((a, c2) :: r.1, r.2)
    | .full => ((a, c) :: r.1, a :: r.2)
    | .disconnected => ((a, c) :: r.1, a :: r.2)

/-- `SharedState::broadcast(data)`: iterate over a snapshot of the current
connections attempting a non-blocking enqueue into each, then — only after the
iteration has completed — remove every address scheduled for eviction. -/
def broadcast (st : Registry) (b : Buf) : Registry :=
  let p := broadcastPass st b
  p.2.foldl (fun s a => removeConn s a) p.1

/-! ## `src/serial.rs` — port auto-selection -/

/-- `SerialSelectError` from `src/serial.rs`. -/
inductive SerialSelErr where
  | noPorts
  | multiplePorts (list : List String)
deriving DecidableEq, Repr

/-- `decide_port(explicit, available)` from `src/serial.rs`: an explicit path
wins outright; otherwise match on `available.len()` — `0` errors with
`NoPorts`, `1` selects `available[0]`, anything larger errors with
`MultiplePorts` carrying the whole list. -/
def decide_port (explicit : Option String) (available : List String) :
    Except SerialSelErr String :=
  match explicit with
  | some p => .ok p
  | none =>
    match available with
    | [] => .error .noPorts
    | [p] => .ok p
    | _ => .error (.multiplePorts available)

/-! ## `src/main.rs` — error-to-exit-code mapping -/

/-- The `std::io::ErrorKind` values distinguished by `exit_code_for_error`;
all remaining kinds are collapsed into `otherKind` (the `_` arm). -/
inductive IOKind where
  | addrInUse
  | addrNotAvailable
  | permissionDenied
  | connectionAborted
  | connectionReset
  | otherKind
deriving DecidableEq, Repr

/-- One cause in an `anyhow::Error` chain, as `exit_code_for_error` can
downcast it: a `SerialSelectError`, a `std::io::Error` of some kind, a
`serialport::Error`, or a cause matching none of the downcasts. -/
inductive ErrCause where
  | selectErr (e : SerialSelErr)
  | ioErr (k : IOKind)
  | serialPortErr
  | otherCause
deriving DecidableEq, Repr

/-- `exit_code_for_error` from `src/main.rs`: walk the error chain; the first
cause that downcasts decides the code — `NoPorts` ↦ 2, `MultiplePorts` ↦ 3, an
I/O error ↦ 4 for the five network-ish kinds and 1 otherwise, a
`serialport::Error` ↦ 5; if no cause downcasts, 1. -/
def exit_code_for_error : List ErrCause → Int
  | [] => 1
  | cause :: rest =>
    match cause with
    | .selectErr .noPorts => 2
    | .selectErr (.multiplePorts _) => 3
    | .ioErr k =>
      match k with
      | .addrInUse | .addrNotAvailable | .permissionDenied
      | .connectionAborted | .connectionReset => 4
      | .otherKind => 1
    | .serialPortErr => 5
    | .otherCause => exit_code_for_error rest

/-! ## `src/cli.rs` — the `listen` options and their defaults -/

inductive DataBitsOpt where
  | five | six | seven | eight
deriving DecidableEq, Repr

inductive ParityOpt where
  | par_none | odd | even
deriving DecidableEq, Repr

inductive StopBitsOpt where
  | one | two
deriving DecidableEq, Repr

/-- The `Listen` arguments from `src/cli.rs`. -/
structure Listen where
  serial : Option String
  baud : Nat
  host : String
  dataBits : DataBitsOpt
  parity : ParityOpt
  stopBits : StopBitsOpt
  buffer : Nat
deriving DecidableEq, Repr

/-- The clap `default_value_t` defaults of `sergw listen`. -/
def listenDefaults : Listen where
  serial := none
  baud := 115200
  host := "127.0.0.1:5656"
  dataBits := .eight
  parity := .par_none
  stopBits := .one
  buffer := 4096

/-! ## `src/net/server.rs` — queue construction -/

/-- A bounded queue as created by `crossbeam_channel::bounded(cap)`. -/
structure BoundedQueue where
  cap : Nat
  items : List Buf
deriving DecidableEq, Repr

/-- `channel::bounded::<Bytes>(capacity)` creates an empty queue of the given
capacity. -/
def newBoundedQueue (capacity : Nat) : BoundedQueue := ⟨capacity, []⟩

/-- The shared serial-ingress queue (`to_serial_tx`/`to_serial_rx`), created
in `run_listen_with_shutdown` as `channel::bounded::<Bytes>(listen.buffer)`. -/
def toSerialQueueInit (l : Listen) : BoundedQueue := newBoundedQueue l.buffer

/-- A per-connection outbound queue (`to_tcp_tx`/`to_tcp_rx`), created on
accept as `channel::bounded::<Bytes>(listen.buffer)`. -/
def outboundQueueInit (l : Listen) : BoundedQueue := newBoundedQueue l.buffer

/-- The sender half of a freshly created per-connection outbound queue, as the
registry will hold it after `shared_state.insert(addr, to_tcp_tx)`. -/
def newConnection (l : Listen) : Conn where
  cap := l.buffer
  q := []
  connected := true

/-! ## `src/main.rs` — the `ports` subcommand output -/

/-- `serialport::SerialPortType`, as `print_ports` consumes it: a USB port
with vid/pid/product/manufacturer metadata, or any other variant (whose Debug
rendering is carried as a string). -/
inductive PortType where
  | usbPort (vid pid : Nat) (product manufacturer : Option String)
  | otherPort (debugDesc : String)
deriving DecidableEq, Repr

/-- `serialport::SerialPortInfo`. -/
structure SerialPortInfo where
  portName : String
  portType : PortType
deriving DecidableEq, Repr

/-- `--format` values of the `ports` subcommand. -/
inductive PortsFmt where
  | text
  | json
deriving DecidableEq, Repr

/-- One line written to the console, tagged by stream. -/
inductive ConsoleOut where
  | stdoutLine (s : String)
  | stderrLine (s : String)
deriving DecidableEq, Repr

/-- Rust's `{:04x}` formatting of a small integer. -/
def hex4 (n : Nat) : String :=
  let ds := Nat.toDigits 16 n
  String.mk (List.replicate (4 - ds.length) '0' ++ ds)

/-- Rust's `{:?}` rendering of an `Option<String>`. -/
def debugOpt : Option String → String
  | none => "None"
  | some s => "Some(" ++ reprStr s ++ ")"

/-- One stdout line of `ports --format text` for a discovered port: just the
name, or (with `--verbose`) name plus tab-separated metadata. -/
def portLineText (verbose : Bool) (p : SerialPortInfo) : String :=
  if verbose then
    match p.portType with
    | .usbPort vid pid product manufacturer =>
      p.portName ++ "\tUSB vid:pid " ++ hex4 vid ++ ":" ++ hex4 pid ++ "\t"
        ++ debugOpt product ++ "\t" ++ debugOpt manufacturer
    | .otherPort d => p.portName ++ "\t" ++ d
  else p.portName

/-- A JSON string literal (quoting as Lean's `repr`, which matches
`serde_json` on escape-free port names). -/
def jsonStrLit (s : String) : String := reprStr s

/-- A JSON field value for an optional string: `null` or a string literal. -/
def jsonOptStr : Option String → String
  | none => "null"
  | some s => jsonStrLit s

/-- A JSON field value for an optional number: `null` or the decimal. -/
def jsonOptNat : Option Nat → String
  | none => "null"
  | some n => toString n

/-- The `PortOut` serialization fields for one port, in declaration order:
`name`, `kind`, `vid`, `pid`, `product`, `manufacturer`. -/
def portOutFields (p : SerialPortInfo) : List (String × String) :=
  match p.portType with
  | .usbPort vid pid product manufacturer =>
    [("name", jsonStrLit p.portName), ("kind", jsonStrLit "usb"),
     ("vid", jsonOptNat (some vid)), ("pid", jsonOptNat (some pid)),
     ("product", jsonOptStr product), ("manufacturer", jsonOptStr manufacturer)]
  | .otherPort d =>
    [("name", jsonStrLit p.portName), ("kind", jsonStrLit d),
     ("vid", "null"), ("pid", "null"), ("product", "null"), ("manufacturer", "null")]

/-- One pretty-printed JSON object for a port (two-space indentation style of
`serde_json::to_string_pretty`, one level deep inside the array). -/
def jsonPortObj (p : SerialPortInfo) : String :=
  "\x7b\n"
    ++ String.intercalate ",\n"
        ((portOutFields p).map (fun f => "    " ++ jsonStrLit f.1 ++ ": " ++ f.2))
    ++ "\n  \x7d"

/-- `serde_json::to_string_pretty` of the `Vec<PortOut>`: the empty vector
prints as the empty array `[]`; a non-empty vector prints one object per
element. -/
def jsonOfPorts : List SerialPortInfo → String
  | [] => "[]"
  | ports =>
    "[\n  " ++ String.intercalate ",\n  " (ports.map jsonPortObj) ++ "\n]"

/-- `print_ports(all, verbose, format)` from `src/main.rs`, applied to the
discovered port list: the console lines it writes, and `some code` when it
calls `std::process::exit(code)` directly.  The text branch with an empty list
prints `<no ports>` to stderr and exits the process with code 2; the json
branch always prints the (possibly empty) JSON array to stdout and returns. -/
def print_ports (ports : List SerialPortInfo) (verbose : Bool) (fmt : PortsFmt) :
    List ConsoleOut × Option Nat :=
  match fmt with
  | .text =>
    if ports.isEmpty then ([.stderrLine "<no ports>"], some 2)
    else (ports.map (fun p => .stdoutLine (portLineText verbose p)), none)
  | .json => ([.stdoutLine (jsonOfPorts ports)], none)

/-- The process exit status of `sergw ports`: the code of an explicit
`process::exit` inside `print_ports`, else 0 (`main` receives `Ok(())` and
falls through). -/
def portsCommandExit (ports : List SerialPortInfo) (verbose : Bool) (fmt : PortsFmt) : Nat :=
  match (print_ports ports verbose fmt).2 with
  | some code => code
  | none => 0

/-! ## `src/net/server.rs` — the byte counters

`Counters { bytes_in: AtomicU64, bytes_out: AtomicU64 }`; the only updates in
the gateway are `fetch_add(n, Relaxed)` with `n` the length of a successful
read (TCP reader updates `bytes_in`, serial reader updates `bytes_out`).
`AtomicU64::fetch_add` wraps around on overflow, hence the mod `2 ^ 64`. -/

/-- `u64` modulus. -/
def U64LIM : Nat := 2 ^ 64

/-- The two byte counters (values of the `AtomicU64`s, always `< U64LIM`
when reached from the initial state). -/
structure Counters where
  bytesIn : Nat
  bytesOut : Nat
deriving DecidableEq, Repr

/-- `AtomicU64::fetch_add`: wrapping 64-bit addition. -/
def fetchAdd64 (x n : Nat) : Nat := (x + n) % U64LIM

/-- A counter-relevant event of any gateway loop: a successful serial read of
`n > 0` bytes (serial reader), a successful TCP read of `n > 0` bytes (a TCP
reader), or any other loop activity (which never touches the counters). -/
inductive CounterEv where
  | serialRead (n : Nat)
  | tcpRead (n : Nat)
  | passive
deriving DecidableEq, Repr

/-- The counter update performed for one event:
`counters.bytes_out.fetch_add(n, Relaxed)` in the serial reader,
`counters.bytes_in.fetch_add(n, Relaxed)` in a TCP reader, nothing anywhere
else.  No operation subtracts from or stores into either counter. -/
def countersStep (c : Counters) : CounterEv → Counters
  | .serialRead n => { c with bytesOut := fetchAdd64 c.bytesOut n }
  | .tcpRead n => { c with bytesIn := fetchAdd64 c.bytesIn n }
  | .passive => c

/-- The counters after an execution trace of events. -/
def countersRun (c : Counters) (tr : List CounterEv) : Counters :=
  tr.foldl countersStep c

/-- Specification vocabulary: total serial-read (`bytes_out`) bytes of a
trace, as an unbounded tally. -/
def sumOutBytes : List CounterEv → Nat
  | [] => 0
  | .serialRead n :: t => n + sumOutBytes t
  | .tcpRead _ :: t => sumOutBytes t
  | .passive :: t => sumOutBytes t

/-- Specification vocabulary: total TCP-read (`bytes_in`) bytes of a trace,
as an unbounded tally. -/
def sumInBytes : List CounterEv → Nat
  | [] => 0
  | .serialRead _ :: t => sumInBytes t
  | .tcpRead n :: t => n + sumInBytes t
  | .passive :: t => sumInBytes t

/-- A trace of successful serial reads (each of at most the 4096-byte scratch
buffer) driving `bytes_out` to exactly `2 ^ 64 - 1`. -/
def wrapTrace : List CounterEv :=
  List.replicate (2 ^ 52 - 1) (CounterEv.serialRead 4096) ++ [CounterEv.serialRead 4095]

/-! ## `src/net/server.rs` — the per-connection supervisor thread

After spawning the reader and writer loops for an accepted connection, the
gateway detaches a supervisor thread running, in order:
`tcp_reader.join()`; `shared_state.remove(&addr)`;
`event_tx.send("Disconnected: <addr>")`; `tcp_writer.join()`. -/

/-- One statement of the supervisor thread's body. -/
inductive SupStmt where
  | joinReader
  | removeEntry (a : Addr)
  | emitEvent (s : String)
  | joinWriter
deriving DecidableEq, Repr

/-- The supervisor's statements for a connection, in source order. -/
def connectionSupervisorStmts (addr : Addr) : List SupStmt :=
  [.joinReader, .removeEntry addr, .emitEvent ("Disconnected: " ++ addr), .joinWriter]

/-- The state the supervisor acts on: the shared registry, the event channel
contents, and which of the two loops have been joined. -/
structure SupState where
  reg : Registry
  events : List String
  readerJoined : Bool
  writerJoined : Bool
deriving DecidableEq, Repr

/-- Effect of one supervisor statement. -/
def supStep (s : SupState) : SupStmt → SupState
  | .joinReader => { s with readerJoined := true }
  | .removeEntry a => { s with reg := removeConn s.reg a }
  | .emitEvent e => { s with events := s.events ++ [e] }
  | .joinWriter => { s with writerJoined := true }

/-- Run a list of supervisor statements from a state. -/
def supRun (s : SupState) (stmts : List SupStmt) : SupState :=
  stmts.foldl supStep s

/-! ## `src/net/server.rs` — the serial writer loop

```
loop {
    if stop { break }
    match to_serial_rx.recv_timeout(200ms) {
        Ok(buf) => if write_all(&buf).is_err() {
            status("Serial: write failed, reconnecting writer...");
            loop {
                if stop { return Ok(()) }
                match open_serial_pair(..) {
                    Ok((sp, spw)) => { keep spw; drop sp;
                                       status("Serial: reconnected (writer)");
                                       let _ = write_all(&buf); let _ = flush();
                                       break }
                    Err(_) => sleep(1s),
                } } },
        Err(Timeout) => {},
        Err(Disconnected) => break,
    } }
```
The loop is embedded as a step function over one receive outcome, with the
device's behavior given by a write oracle and a list of reconnection-attempt
observations. -/

/-- `to_serial_rx.recv_timeout(Duration::from_millis(200))` bound. -/
def serialWriterRecvTimeoutMs : Nat := 200

/-- `Duration::from_secs(1)` between failed reopen attempts. -/
def reconnectRetrySleepSecs : Nat := 1

/-- Outcome of one bounded receive on the serial-ingress queue. -/
inductive WEvent where
  | timeout
  | disconnected
  | buf (b : Buf)
deriving DecidableEq, Repr

/-- Externally visible actions of the serial writer. -/
inductive WAct where
  | writeDev (b : Buf)
  | flushDev
  | statusMsg (s : String)
  | sleepRetry
deriving DecidableEq, Repr

/-- How one pass of a reconnection loop ended. -/
inductive ReconnRes where
  | reopened
  | stopped
  | fuelOut
deriving DecidableEq, Repr

/-- What the writer does after handling one receive outcome. -/
inductive WStepRes where
  | cont
  | exit
  | pending
deriving DecidableEq, Repr

/-- The writer's inner reconnection loop, driven by the observations made at
each attempt: the stop flag at the top, then the `open_serial_pair` outcome.
On a successful open the writer keeps the writer handle, drops the reader
handle, and emits the reconnected status; on failure it sleeps 1 s and
retries.  `fuelOut` means the observation list ended before either exit. -/
def reconnectWriter : List (Bool × Bool) → List WAct × ReconnRes
  | [] => ([], .fuelOut)
  | (stopSeen, openOk) :: rest =>
    if stopSeen then ([], .stopped)
    else if openOk then ([.statusMsg "Serial: reconnected (writer)"], .reopened)
    else
      let r := reconnectWriter rest
      (.sleepRetry :: r.1, r.2)

/-- One iteration of the serial writer loop: the stop flag observed at the
top, the outcome of the 200 ms bounded receive, the device's response to the
first write of a buffer, and the reconnection observations (consulted only
when the write fails).  Returns the actions performed and whether the loop
continues, exits, or ran out of reconnection observations. -/
def serialWriterStep (stop : Bool) (ev : WEvent) (writeOk : Buf → Bool)
    (attempts : List (Bool × Bool)) : List WAct × WStepRes :=
  if stop then ([], .exit)
  else
    match ev with
    | .timeout => ([], .cont)
    | .disconnected => ([], .exit)
    | .buf b =>
      if writeOk b then ([.writeDev b], .cont)
      else
        let r := reconnectWriter attempts
        match r.2 with
        | .stopped =>
          (.writeDev b :: .statusMsg "Serial: write failed, reconnecting writer..." :: r.1,
           .exit)
        | .reopened =>
          (.writeDev b :: .statusMsg "Serial: write failed, reconnecting writer..."
             :: (r.1 ++ [.writeDev b, .flushDev]),
           .cont)
        | .fuelOut =>
          (.writeDev b :: .statusMsg "Serial: write failed, reconnecting writer..." :: r.1,
           .pending)

/-! ## `src/net/server.rs` — the serial reader loop

```
loop {
    while !stop {
        match serial_port.read(&mut buffer) {
            Ok(n) if n > 0 => { bytes_out += n; inspector try_send; broadcast }
            Ok(_) => {}
            Err(TimedOut) => {}
            Err(BrokenPipe) => { status("Serial: disconnected, ..."); break }
            Err(_) => { warn; break }
        } }
    if stop { break }
    match open_serial_pair(..) {
        Ok((sp, spw)) => { serial_port = sp; drop(spw);
                           status("Serial: reconnected (reader)") }
        Err(_) => { warn; sleep(1s) }
    } }
```
The inner read loop is embedded over a trace of (stop observation, read
outcome) pairs; the outer loop over a trace of outer iterations, each holding
an inner trace, the stop observation after the inner loop breaks, and the
reopen outcome. -/

/-- Outcome of one `serial_port.read(&mut buffer)` (4096-byte scratch):
a chunk of `n = bs.length` bytes (`n = 0` for an empty read), a timed-out
read, a broken pipe, or any other error. -/
inductive ReadEv where
  | chunk (bs : Buf)
  | timedOut
  | brokenPipe
  | otherErr
deriving DecidableEq, Repr

/-- Externally visible actions of the serial reader.  A `bcast` stands for the
successful-read block: the `bytes_out` increment, the best-effort inspector
sample, and `shared_state.broadcast` of the fresh buffer (the counter effect
itself is modelled by `countersStep`). -/
inductive RAct where
  | bcast (bs : Buf)
  | statusMsg (s : String)
  | warnLog
  | sleepRetry
  | reopenOk
deriving DecidableEq, Repr

/-- How the inner read loop was left. -/
inductive InnerExit where
  | stopObserved
  | deviceError
  | fuelOut
deriving DecidableEq, Repr

/-- The inner `while !stop` read loop over a trace of (stop observation, read
outcome) pairs. -/
def readerInner : List (Bool × ReadEv) → List RAct × InnerExit
  | [] => ([], .fuelOut)
  | (stop, ev) :: rest =>
    if stop then ([], .stopObserved)
    else
      match ev with
      | .chunk bs =>
        if 0 < bs.length then
          let r := readerInner rest
          (.bcast bs :: r.1, r.2)
        else readerInner rest
      | .timedOut => readerInner rest
      | .brokenPipe =>
        ([.statusMsg "Serial: disconnected, attempting reconnect..."], .deviceError)
      | .otherErr => ([.warnLog], .deviceError)

/-- One iteration of the outer reader loop: the trace the inner read loop
consumes, the stop flag observed right after the inner loop breaks, and the
outcome of the reopen attempt. -/
structure OuterIter where
  innerTrace : List (Bool × ReadEv)
  stopAfter : Bool
  openOk : Bool
deriving Repr

/-- How a reader run ended: the thread returned after observing stop, or the
observation trace ran out with the loop still running. -/
inductive RunExit where
  | stopped
  | fuelOut
deriving DecidableEq, Repr

/-- The outer reader loop over a trace of outer iterations.  The thread exits
when the inner loop observed stop, or when stop is observed after a device
error; otherwise it reopens (emitting the reconnected status and resuming
reads) or sleeps 1 s after a failed open and loops again. -/
def readerOuter : List OuterIter → List RAct × RunExit
  | [] => ([], .fuelOut)
  | it :: rest =>
    let r := readerInner it.innerTrace
    match r.2 with
    | .stopObserved => (r.1, .stopped)
    | .fuelOut => (r.1, .fuelOut)
    | .deviceError =>
      if it.stopAfter then (r.1, .stopped)
      else if it.openOk then
        let r2 := readerOuter rest
        (r.1 ++ (.reopenOk :: .statusMsg "Serial: reconnected (reader)" :: r2.1), r2.2)
      else
        let r2 := readerOuter rest
        (r.1 ++ (.sleepRetry :: r2.1), r2.2)

/-- Specification vocabulary: the trace contains a `true` stop observation
(inside some inner trace, or at an outer iteration boundary). -/
def outerHasStop (tr : List OuterIter) : Prop :=
  ∃ it ∈ tr, it.stopAfter = true ∨ ∃ p ∈ it.innerTrace, p.1 = true

/-- The view of one connection after the broadcast iteration touched it: a
successful `try_send` leaves the queue with the buffer appended, a failed one
leaves it unchanged. -/
def passConn (b : Buf) (c : Conn) : Conn :=
  match trySend c b with
  | .ok c2 => c2
  | .full => c
  | .disconnected => c

/-- Whether the non-blocking send of `b` into `c` fails (`Full` or
`Disconnected`), i.e. whether `broadcast` schedules the address for
eviction. -/
def sendFails (c : Conn) (b : Buf) : Bool :=
  match trySend c b with
  | .ok _ => false
  | .full => true
  | .disconnected => true

/-! ## Shared lemmas about the registry -/

/-- Removing an address erases exactly that key from the lookup view. -/
theorem lookup_removeConn (st : Registry) (x a : Addr) :
    lookupConn (removeConn st x) a = if a = x then none else lookupConn st a := by
  induction st with
  | nil => simp [removeConn, lookupConn]
  | cons e rest ih =>
    obtain ⟨k, c⟩ := e
    by_cases hk : k = x
    · subst hk
      by_cases ha : a = k
      · subst ha
        simpa [removeConn] using ih
      · have hka : ¬ k = a := fun h => ha h.symm
        simp [removeConn, lookupConn, ha, hka, ih]
    · by_cases ha : k = a
      · subst ha
        simp [removeConn, lookupConn, hk]
      · simp [removeConn, lookupConn, hk, ha, ih]

/-- `removeConn` distributes over list append. -/
theorem removeConn_append (s t : Registry) (a : Addr) :
    removeConn (s ++ t) a = removeConn s a ++ removeConn t a := by
  induction s with
  | nil => simp [removeConn]
  | cons e rest ih =>
    obtain ⟨k, c⟩ := e
    by_cases hk : k = a <;> simp [removeConn, hk, ih]

/-- Removing an absent address is a no-op. -/
theorem removeConn_of_lookup_none (st : Registry) (a : Addr)
    (h : lookupConn st a = none) : removeConn st a = st := by
  induction st with
  | nil => rfl
  | cons e rest ih =>
    obtain ⟨k, c⟩ := e
    by_cases hk : k = a
    · simp [lookupConn, hk] at h
    · simp [lookupConn, hk] at h
      simp [removeConn, hk, ih h]

/-- The entries after the broadcast iteration: every queue is mapped through
`passConn` (append on success, unchanged on failure), keys untouched. -/
theorem broadcastPass_fst (st : Registry) (b : Buf) :
    (broadcastPass st b).1 = st.map (fun e => (e.1, passConn b e.2)) := by
  induction st with
  | nil => rfl
  | cons e rest ih =>
    obtain ⟨a, c⟩ := e
    simp only [broadcastPass]
    cases h : trySend c b <;> simp [passConn, h, ih]

/-- The eviction list collected by the broadcast iteration: exactly the
addresses (in iteration order) whose send failed. -/
theorem broadcastPass_snd (st : Registry) (b : Buf) :
    (broadcastPass st b).2 = (st.filter (fun e => sendFails e.2 b)).map Prod.fst := by
  induction st with
  | nil => rfl
  | cons e rest ih =>
    obtain ⟨a, c⟩ := e
    simp only [broadcastPass]
    cases h : trySend c b <;> simp [sendFails, h, ih, List.filter_cons]

/-- Lookup commutes with the key-preserving per-entry map. -/
theorem lookup_map_pass (st : Registry) (b : Buf) (a : Addr) :
    lookupConn (st.map (fun e => (e.1, passConn b e.2))) a
      = (lookupConn st a).map (passConn b) := by
  induction st with
  | nil => rfl
  | cons e rest ih =>
    obtain ⟨k, c⟩ := e
    by_cases hk : k = a <;> simp [lookupConn, hk, ih]

/-- An entry of the registry is what lookup returns, when keys are unique. -/
theorem lookup_eq_some_of_mem (st : Registry) (a : Addr) (c : Conn)
    (hnd : keysNodup st) (h : (a, c) ∈ st) : lookupConn st a = some c := by
  induction st with
  | nil => cases h
  | cons e rest ih =>
    obtain ⟨k, c'⟩ := e
    simp only [keysNodup, List.map_cons, List.nodup_cons] at hnd
    rcases List.mem_cons.mp h with h1 | h1
    · cases h1
      simp [lookupConn]
    · have hk : ¬ k = a := by
        intro hka
        subst hka
        exact hnd.1 (List.mem_map.mpr ⟨(k, c), h1, rfl⟩)
      simp only [lookupConn, if_neg hk]
      exact ih hnd.2 h1

/-- Lookup success means the entry is present. -/
theorem mem_of_lookup_eq_some (st : Registry) (a : Addr) (c : Conn)
    (h : lookupConn st a = some c) : (a, c) ∈ st := by
  induction st with
  | nil => cases h
  | cons e rest ih =>
    obtain ⟨k, c'⟩ := e
    by_cases hk : k = a
    · subst hk
      simp [lookupConn] at h
      subst h
      exact List.mem_cons_self _ _
    · simp only [lookupConn, if_neg hk] at h
      exact List.mem_cons_of_mem _ (ih h)

/-- Membership in the eviction list, elementwise. -/
theorem mem_broadcastPass_snd (st : Registry) (b : Buf) (a : Addr) :
    a ∈ (broadcastPass st b).2 ↔ ∃ c, (a, c) ∈ st ∧ sendFails c b = true := by
  rw [broadcastPass_snd]
  constructor
  · intro h
    rcases List.mem_map.mp h with ⟨⟨k, c⟩, hmem, hk⟩
    rcases List.mem_filter.mp hmem with ⟨hst, hf⟩
    cases hk
    exact ⟨c, hst, hf⟩
  · rintro ⟨c, hmem, hf⟩
    exact List.mem_map.mpr ⟨(a, c), List.mem_filter.mpr ⟨hmem, hf⟩, rfl⟩

/-- Lookup after folding the scheduled removals over the registry. -/
theorem lookup_foldl_removeConn (rem : List Addr) (st : Registry) (a : Addr) :
    lookupConn (rem.foldl (fun s x => removeConn s x) st) a
      = if a ∈ rem then none else lookupConn st a := by
  induction rem generalizing st with
  | nil => simp
  | cons x rest ih =>
    simp only [List.foldl_cons, ih, lookup_removeConn]
    by_cases hr : a ∈ rest
    · simp [hr]
    · by_cases hx : a = x <;> simp [hr, hx, List.mem_cons]

/-- C1: For every invocation of `broadcast(buffer)`, every client
registered at the moment of the call either has the buffer enqueued into its
outbound queue exactly once — appended at the back, preserving serial-arrival
order — or (on a full or disconnected queue) is removed from the registry by
that same broadcast; since the removals are performed only after the iteration
completes, this delivery/eviction dichotomy holds for every registered client
simultaneously, so clients other than the evicted ones still receive the
buffer. -/
theorem broadcast_delivers_or_evicts (st : Registry) (b : Buf) (a : Addr) (c : Conn)
    (hnd : keysNodup st) (h : lookupConn st a = some c) :
    lookupConn (broadcast st b) a =
      if c.connected = true ∧ c.q.length < c.cap
      then some { c with q := c.q ++ [b] } else none := by
  have hpass : lookupConn (broadcastPass st b).1 a = some (passConn b c) := by
    rw [broadcastPass_fst, lookup_map_pass, h]
    rfl
  have hmem : a ∈ (broadcastPass st b).2 ↔ sendFails c b = true := by
    rw [mem_broadcastPass_snd]
    constructor
    · rintro ⟨c', hc', hf⟩
      have hc2 := lookup_eq_some_of_mem st a c' hnd hc'
      rw [h] at hc2
      injection hc2 with hcc
      rw [hcc]
      exact hf
    · intro hf
      exact ⟨c, mem_of_lookup_eq_some st a c h, hf⟩
  show lookupConn
      ((broadcastPass st b).2.foldl (fun s x => removeConn s x) (broadcastPass st b).1) a = _
  rw [lookup_foldl_removeConn, hpass]
  by_cases hc : c.connected = true ∧ c.q.length < c.cap
  · have hok : trySend c b = .ok { c with q := c.q ++ [b] } := by
      simp [trySend, hc.1, Nat.not_le.mpr hc.2]
    have hfail : sendFails c b = false := by
      simp [sendFails, hok]
    simp [hmem, hfail, hc, passConn, hok]
  · have hfail : sendFails c b = true := by
      by_cases h1 : c.connected = true
      · have h2 : c.cap ≤ c.q.length := by
          rcases Nat.lt_or_ge c.q.length c.cap with hlt | hge
          · exact absurd ⟨h1, hlt⟩ hc
          · exact hge
        simp [sendFails, trySend, h1, h2]
      · have h1' : c.connected = false := by
          cases hcc : c.connected
          · rfl
          · exact absurd hcc h1
        simp [sendFails, trySend, h1']
    simp [hmem, hfail, hc]

/-- Witness for C1 at a concrete registry: a healthy client receives the
buffer at the back of its queue, a full client is evicted by the same
broadcast. -/
theorem broadcast_delivers_or_evicts_witness :
    lookupConn (broadcast [("10.0.0.1:51000", ⟨2, [[9]], true⟩),
                           ("10.0.0.2:51001", ⟨1, [[9]], true⟩)] [7]) "10.0.0.1:51000"
      = (if (true = true ∧ ([[9]] : List Buf).length < 2)
         then some ⟨2, [[9]] ++ [[7]], true⟩ else none)
    ∧ lookupConn (broadcast [("10.0.0.1:51000", ⟨2, [[9]], true⟩),
                             ("10.0.0.2:51001", ⟨1, [[9]], true⟩)] [7]) "10.0.0.2:51001"
      = (if (true = true ∧ ([[9]] : List Buf).length < 1)
         then some ⟨1, [[9]] ++ [[7]], true⟩ else none) :=
  ⟨broadcast_delivers_or_evicts _ [7] "10.0.0.1:51000" ⟨2, [[9]], true⟩
      (by unfold keysNodup; decide) (by decide),
   broadcast_delivers_or_evicts _ [7] "10.0.0.2:51001" ⟨1, [[9]], true⟩
      (by unfold keysNodup; decide) (by decide)⟩

/-- C6 counterexample: When the address is already present before the
insert, `insert` followed by `remove` does *not* restore the pre-insert state:
`DashMap::insert` replaces the old sender and `DashMap::remove` then erases
the entry outright, so the original mapping is lost.  Concretely, a registry
holding one connection for `"10.0.0.7:50000"` ends up empty, with the original
lookup no longer succeeding. -/
theorem insert_remove_not_pre_state :
    removeConn (insertConn [("10.0.0.7:50000", ⟨4096, [], true⟩)]
        "10.0.0.7:50000" ⟨4096, [], false⟩) "10.0.0.7:50000"
      ≠ [("10.0.0.7:50000", ⟨4096, [], true⟩)]
    ∧ lookupConn (removeConn (insertConn [("10.0.0.7:50000", ⟨4096, [], true⟩)]
        "10.0.0.7:50000" ⟨4096, [], false⟩) "10.0.0.7:50000") "10.0.0.7:50000"
      = none
    ∧ lookupConn [("10.0.0.7:50000", (⟨4096, [], true⟩ : Conn))] "10.0.0.7:50000"
      = some ⟨4096, [], true⟩ := by
  refine ⟨?_, by decide, by decide⟩
  decide

/-- C6 amended: `registry.insert(address, sender)` followed by
`registry.remove(address)` leaves the registry in exactly its pre-insert
state, provided the address was not present before the insert.  (When the
address was present, the pre-existing entry is lost — see the
counterexample.) -/
theorem insert_remove_of_absent (st : Registry) (a : Addr) (c : Conn)
    (h : lookupConn st a = none) :
    removeConn (insertConn st a c) a = st := by
  unfold insertConn
  rw [if_pos h, removeConn_append, removeConn_of_lookup_none st a h]
  simp [removeConn]

/-- Witness for C6 amended at a concrete registry not containing the
inserted address. -/
theorem insert_remove_of_absent_witness :
    lookupConn [("10.0.0.8:50001", (⟨8, [], true⟩ : Conn))] "10.0.0.9:50002" = none
    ∧ removeConn (insertConn [("10.0.0.8:50001", ⟨8, [], true⟩)]
        "10.0.0.9:50002" ⟨8, [], true⟩) "10.0.0.9:50002"
      = [("10.0.0.8:50001", ⟨8, [], true⟩)] :=
  ⟨by decide,
   insert_remove_of_absent [("10.0.0.8:50001", ⟨8, [], true⟩)]
     "10.0.0.9:50002" ⟨8, [], true⟩ (by decide)⟩

/-- C5: The per-connection supervisor performs its steps in source order:
join the reader loop, remove the connection's registry entry, emit the
`"Disconnected: <addr>"` event, and only then join the writer loop.  Running
the statements preceding the writer join already leaves the registry without
the address (and the event emitted, the reader joined, the writer not yet
joined), so the registry removal happens before the writer is joined. -/
theorem supervisor_removes_before_writer_join (st : Registry) (evs : List String) (addr : Addr) :
    connectionSupervisorStmts addr =
      [SupStmt.joinReader, SupStmt.removeEntry addr,
       SupStmt.emitEvent ("Disconnected: " ++ addr), SupStmt.joinWriter]
    ∧ supRun ⟨st, evs, false, false⟩ ((connectionSupervisorStmts addr).take 3) =
        ⟨removeConn st addr, evs ++ ["Disconnected: " ++ addr], true, false⟩
    ∧ lookupConn (supRun ⟨st, evs, false, false⟩
        ((connectionSupervisorStmts addr).take 3)).reg addr = none
    ∧ supRun ⟨st, evs, false, false⟩ (connectionSupervisorStmts addr) =
        ⟨removeConn st addr, evs ++ ["Disconnected: " ++ addr], true, true⟩ := by
  refine ⟨rfl, rfl, ?_, rfl⟩
  show lookupConn (removeConn st addr) addr = none
  simp [lookup_removeConn]

/-- C4: The shared serial-ingress queue and every per-connection outbound
queue are created bounded with capacity `listen.buffer`, whose clap default is
4096; a connection's queue holding `listen.buffer` items refuses the next
non-blocking send with `Full`. -/
theorem queue_capacities_match_listen_buffer (l : Listen) :
    (toSerialQueueInit l).cap = l.buffer
    ∧ (outboundQueueInit l).cap = l.buffer
    ∧ (newConnection l).cap = l.buffer
    ∧ listenDefaults.buffer = 4096
    ∧ (∀ b q, q.length = l.buffer → trySend ⟨l.buffer, q, true⟩ b = .full) := by
  refine ⟨rfl, rfl, rfl, rfl, ?_⟩
  intro b q hq
  simp [trySend, hq]

/-- Witness for C4 at the default configuration and a queue at
capacity. -/
theorem queue_capacities_witness :
    trySend ⟨listenDefaults.buffer, List.replicate 4096 [], true⟩ [1] = .full :=
  (queue_capacities_match_listen_buffer listenDefaults).2.2.2.2 [1]
    (List.replicate 4096 []) (by rw [List.length_replicate]; rfl)

/-- C7: The error-to-exit-code mapping: a `NoPorts` selection error maps
to 2 and a `MultiplePorts` one to 3; an I/O error of kind `AddrInUse`,
`AddrNotAvailable`, `PermissionDenied`, `ConnectionAborted`, or
`ConnectionReset` maps to 4 (any other I/O kind to 1); a serial
open/configure failure (`serialport::Error`) maps to 5; and an error none of
whose chained causes downcasts maps to 1. -/
theorem exit_code_mapping (rest : List ErrCause) :
    exit_code_for_error (.selectErr .noPorts :: rest) = 2
    ∧ (∀ l, exit_code_for_error (.selectErr (.multiplePorts l) :: rest) = 3)
    ∧ exit_code_for_error (.ioErr .addrInUse :: rest) = 4
    ∧ exit_code_for_error (.ioErr .addrNotAvailable :: rest) = 4
    ∧ exit_code_for_error (.ioErr .permissionDenied :: rest) = 4
    ∧ exit_code_for_error (.ioErr .connectionAborted :: rest) = 4
    ∧ exit_code_for_error (.ioErr .connectionReset :: rest) = 4
    ∧ exit_code_for_error (.ioErr .otherKind :: rest) = 1
    ∧ exit_code_for_error (.serialPortErr :: rest) = 5
    ∧ (∀ chain : List ErrCause, (∀ e ∈ chain, e = .otherCause) →
        exit_code_for_error chain = 1) := by
  refine ⟨rfl, fun _ => rfl, rfl, rfl, rfl, rfl, rfl, rfl, rfl, ?_⟩
  intro chain hall
  induction chain with
  | nil => rfl
  | cons e t ih =>
    have he : e = .otherCause := hall e (List.mem_cons_self _ _)
    subst he
    show exit_code_for_error t = 1
    exact ih (fun x hx => hall x (List.mem_cons_of_mem _ hx))

/-- Witness for C7 at concrete inputs, including a chain of two
non-downcastable causes. -/
theorem exit_code_mapping_witness :
    exit_code_for_error [ErrCause.selectErr .noPorts] = 2
    ∧ exit_code_for_error [ErrCause.selectErr (.multiplePorts ["/dev/ttyUSB0", "/dev/ttyUSB1"])] = 3
    ∧ exit_code_for_error [ErrCause.ioErr .addrInUse] = 4
    ∧ exit_code_for_error [ErrCause.serialPortErr] = 5
    ∧ exit_code_for_error [ErrCause.otherCause, ErrCause.otherCause] = 1 :=
  ⟨(exit_code_mapping []).1,
   (exit_code_mapping []).2.1 ["/dev/ttyUSB0", "/dev/ttyUSB1"],
   (exit_code_mapping []).2.2.1,
   (exit_code_mapping []).2.2.2.2.2.2.2.2.1,
   (exit_code_mapping []).2.2.2.2.2.2.2.2.2 [ErrCause.otherCause, ErrCause.otherCause]
     (by decide)⟩

/-- C8: `decide_port(explicit, available)` returns the explicit path
whenever one is given, regardless of the available list; with no explicit
path it errors with `NoPorts` on an empty list, returns the single element of
a one-element list, and errors with `MultiplePorts` carrying the full list
when it has two or more elements. -/
theorem decide_port_auto_select :
    (∀ p avail, decide_port (some p) avail = .ok p)
    ∧ decide_port none [] = .error .noPorts
    ∧ (∀ p, decide_port none [p] = .ok p)
    ∧ (∀ p q rest, decide_port none (p :: q :: rest)
        = .error (.multiplePorts (p :: q :: rest))) :=
  ⟨fun _ _ => rfl, rfl, fun _ => rfl, fun _ _ _ => rfl⟩

/-- C10: For `sergw ports` over an empty discovered-port list, the text
format prints `<no ports>` to stderr and terminates the process with exit
code 2, whereas the json format prints the empty JSON array `[]` to stdout
and the process exits 0: the exit status of `ports` with no ports depends on
the chosen output format. -/
theorem ports_empty_exit_depends_on_format (verbose : Bool) :
    print_ports [] verbose .text = ([.stderrLine "<no ports>"], some 2)
    ∧ print_ports [] verbose .json = ([.stdoutLine "[]"], none)
    ∧ portsCommandExit [] verbose .text = 2
    ∧ portsCommandExit [] verbose .json = 0
    ∧ portsCommandExit [] verbose .text ≠ portsCommandExit [] verbose .json :=
  ⟨rfl, rfl, rfl, rfl, Nat.succ_ne_zero 1⟩

/-- Counter runs compose over trace concatenation. -/
theorem countersRun_append (c : Counters) (t1 t2 : List CounterEv) :
    countersRun c (t1 ++ t2) = countersRun (countersRun c t1) t2 := by
  simp [countersRun, List.foldl_append]

/-- Closed form of a run of `k` successful serial reads of `a` bytes each:
`bytes_out` accumulates modulo `2 ^ 64`. -/
theorem countersRun_replicate_serialRead (k : Nat) :
    ∀ c : Counters, ∀ a : Nat, c.bytesOut < U64LIM →
      countersRun c (List.replicate k (CounterEv.serialRead a))
        = { c with bytesOut := (c.bytesOut + k * a) % U64LIM } := by
  induction k with
  | zero =>
    intro c a hc
    simp [countersRun, Nat.mod_eq_of_lt hc]
  | succ k ih =>
    intro c a hc
    rw [List.replicate_succ]
    have hstep : countersStep c (CounterEv.serialRead a)
        = { c with bytesOut := (c.bytesOut + a) % U64LIM } := rfl
    have hlt : ((c.bytesOut + a) % U64LIM) < U64LIM :=
      Nat.mod_lt _ (by decide)
    calc countersRun c (CounterEv.serialRead a :: List.replicate k (CounterEv.serialRead a))
        = countersRun { c with bytesOut := (c.bytesOut + a) % U64LIM }
            (List.replicate k (CounterEv.serialRead a)) := by
          simp [countersRun, hstep]
      _ = { c with bytesOut := ((c.bytesOut + a) % U64LIM + k * a) % U64LIM } :=
          ih _ a hlt
      _ = { c with bytesOut := (c.bytesOut + (k + 1) * a) % U64LIM } := by
          have harg : c.bytesOut + a + k * a = c.bytesOut + (k + 1) * a := by
            rw [Nat.succ_mul]
            omega
          rw [Nat.mod_add_mod, harg]

/-- The wrap trace drives `bytes_out` from 0 to exactly `2 ^ 64 - 1`. -/
theorem countersRun_wrapTrace :
    countersRun ⟨0, 0⟩ wrapTrace = ⟨0, U64LIM - 1⟩ := by
  unfold wrapTrace
  rw [countersRun_append, countersRun_replicate_serialRead _ _ _ (by decide)]
  decide

/-- C9 counterexample: The counters are `u64`s updated by wrapping
`fetch_add`, so `bytes_out` is not monotonically non-decreasing over *every*
execution: on the concrete trace of successful serial reads (each within the
4096-byte scratch buffer) that drives `bytes_out` to `2 ^ 64 - 1`, one
further 2-byte read wraps the counter around to 1, a strict decrease. -/
theorem bytes_out_wraps_around :
    (countersRun ⟨0, 0⟩ (wrapTrace ++ [CounterEv.serialRead 2])).bytesOut
      < (countersRun ⟨0, 0⟩ wrapTrace).bytesOut := by
  rw [countersRun_append, countersRun_wrapTrace]
  show (U64LIM - 1 + 2) % U64LIM < U64LIM - 1
  decide

/-- C9 amended: Restricted to executions whose accumulated byte totals
stay below `2 ^ 64` (every physically realizable one), the counters are
monotonically non-decreasing: every update any gateway loop performs is an
atomic `fetch_add` of the non-negative byte count of a successful read —
`bytes_in` by the TCP readers, `bytes_out` by the serial reader — and no
operation subtracts from or resets either counter, so each counter equals its
starting value plus the bytes read so far. -/
theorem counters_monotone_without_wrap (tr : List CounterEv) :
    ∀ c : Counters,
      c.bytesIn + sumInBytes tr < U64LIM →
      c.bytesOut + sumOutBytes tr < U64LIM →
      countersRun c tr = ⟨c.bytesIn + sumInBytes tr, c.bytesOut + sumOutBytes tr⟩
      ∧ c.bytesIn ≤ (countersRun c tr).bytesIn
      ∧ c.bytesOut ≤ (countersRun c tr).bytesOut := by
  induction tr with
  | nil =>
    intro c _ _
    refine ⟨?_, Nat.le_refl _, Nat.le_refl _⟩
    show c = _
    cases c
    simp [sumInBytes, sumOutBytes]
  | cons ev t ih =>
    intro c hin hout
    have hrun : countersRun c (ev :: t) = countersRun (countersStep c ev) t := rfl
    have hmain : countersRun c (ev :: t)
        = ⟨c.bytesIn + sumInBytes (ev :: t), c.bytesOut + sumOutBytes (ev :: t)⟩ := by
      cases ev with
      | serialRead n =>
        have hn : c.bytesOut + n < U64LIM := by
          have : n ≤ sumOutBytes (CounterEv.serialRead n :: t) := by
            simp [sumOutBytes]
          omega
        have hstep : countersStep c (CounterEv.serialRead n)
            = ⟨c.bytesIn, c.bytesOut + n⟩ := by
          show Counters.mk c.bytesIn ((c.bytesOut + n) % U64LIM) = _
          rw [Nat.mod_eq_of_lt hn]
        rw [hrun, hstep]
        have h1 : c.bytesIn + sumInBytes t < U64LIM := by
          simp [sumInBytes] at hin ⊢
          omega
        have h2 : (c.bytesOut + n) + sumOutBytes t < U64LIM := by
          simp [sumOutBytes] at hout ⊢
          omega
        rw [(ih ⟨c.bytesIn, c.bytesOut + n⟩ h1 h2).1]
        simp [sumInBytes, sumOutBytes]
        omega
      | tcpRead n =>
        have hn : c.bytesIn + n < U64LIM := by
          have : n ≤ sumInBytes (CounterEv.tcpRead n :: t) := by
            simp [sumInBytes]
          omega
        have hstep : countersStep c (CounterEv.tcpRead n)
            = ⟨c.bytesIn + n, c.bytesOut⟩ := by
          show Counters.mk ((c.bytesIn + n) % U64LIM) c.bytesOut = _
          rw [Nat.mod_eq_of_lt hn]
        rw [hrun, hstep]
        have h1 : (c.bytesIn + n) + sumInBytes t < U64LIM := by
          simp [sumInBytes] at hin ⊢
          omega
        have h2 : c.bytesOut + sumOutBytes t < U64LIM := by
          simp [sumOutBytes] at hout ⊢
          omega
        rw [(ih ⟨c.bytesIn + n, c.bytesOut⟩ h1 h2).1]
        simp [sumInBytes, sumOutBytes]
        omega
      | passive =>
        have h1 : c.bytesIn + sumInBytes t < U64LIM := by
          simpa [sumInBytes] using hin
        have h2 : c.bytesOut + sumOutBytes t < U64LIM := by
          simpa [sumOutBytes] using hout
        rw [hrun]
        show countersRun c t = _
        rw [(ih c h1 h2).1]
        simp [sumInBytes, sumOutBytes]
    refine ⟨hmain, ?_, ?_⟩
    · rw [hmain]
      exact Nat.le_add_right _ _
    · rw [hmain]
      exact Nat.le_add_right _ _

/-- Witness for C9 amended on a small concrete trace. -/
theorem counters_monotone_witness :
    countersRun ⟨0, 0⟩ [CounterEv.tcpRead 5, CounterEv.serialRead 3, CounterEv.passive]
      = ⟨0 + 5, 0 + 3⟩
    ∧ 0 ≤ (countersRun ⟨0, 0⟩
        [CounterEv.tcpRead 5, CounterEv.serialRead 3, CounterEv.passive]).bytesIn
    ∧ 0 ≤ (countersRun ⟨0, 0⟩
        [CounterEv.tcpRead 5, CounterEv.serialRead 3, CounterEv.passive]).bytesOut :=
  counters_monotone_without_wrap
    [CounterEv.tcpRead 5, CounterEv.serialRead 3, CounterEv.passive]
    ⟨0, 0⟩ (by decide) (by decide)

/-- The writer's reconnection loop never writes to the device; it only emits
status, sleeps between attempts, and returns. -/
theorem writeDev_not_mem_reconnectWriter (atts : List (Bool × Bool)) (b : Buf) :
    WAct.writeDev b ∉ (reconnectWriter atts).1 := by
  induction atts with
  | nil => simp [reconnectWriter]
  | cons p rest ih =>
    obtain ⟨stopSeen, openOk⟩ := p
    cases stopSeen <;> cases openOk <;> simp [reconnectWriter, ih]

/-- C2: The serial writer loop pulls one buffer from the serial-ingress
queue with a 200 ms bounded wait; on a wait-timeout it continues (the stop
signal is observed at the top of the next iteration, where a true stop exits
the loop); on queue-disconnected it exits; and on a failed device write it
emits the failure status, enters the reconnection routine, and — after a
successful reopen — retries writing the same failing buffer exactly once
(the reconnection actions contain no device write, and exactly one write of
the buffer follows the reopen), flushes, and resumes the loop. -/
theorem serial_writer_recv_and_retry :
    serialWriterRecvTimeoutMs = 200
    ∧ (∀ wOk atts, serialWriterStep false .timeout wOk atts = ([], .cont))
    ∧ (∀ ev wOk atts, serialWriterStep true ev wOk atts = ([], .exit))
    ∧ (∀ wOk atts, serialWriterStep false .disconnected wOk atts = ([], .exit))
    ∧ (∀ (b : Buf) (wOk : Buf → Bool) atts racts, wOk b = false →
        reconnectWriter atts = (racts, .reopened) →
        serialWriterStep false (.buf b) wOk atts
          = (.writeDev b :: .statusMsg "Serial: write failed, reconnecting writer..."
               :: (racts ++ [.writeDev b, .flushDev]), .cont)
          ∧ WAct.writeDev b ∉ racts)
    ∧ (∀ (b : Buf) (wOk : Buf → Bool) atts racts, wOk b = false →
        reconnectWriter atts = (racts, .stopped) →
        serialWriterStep false (.buf b) wOk atts
          = (.writeDev b :: .statusMsg "Serial: write failed, reconnecting writer..."
               :: racts, .exit)) := by
  refine ⟨rfl, fun _ _ => rfl, ?_, fun _ _ => rfl, ?_, ?_⟩
  · intro ev wOk atts
    cases ev <;> rfl
  · intro b wOk atts racts hw hrec
    constructor
    · simp only [serialWriterStep, hw, hrec]
      rfl
    · have := writeDev_not_mem_reconnectWriter atts b
      rw [hrec] at this
      exact this
  · intro b wOk atts racts hw hrec
    simp only [serialWriterStep, hw, hrec]
    rfl

/-- Witness for C2: a concrete failed write followed by one failed and
one successful reopen attempt; the buffer is written once more after the
reopen, then flushed, and the loop continues. -/
theorem serial_writer_retry_witness :
    serialWriterStep false (.buf [3, 4]) (fun _ => false)
        [(false, false), (false, true)]
      = (WAct.writeDev [3, 4]
          :: WAct.statusMsg "Serial: write failed, reconnecting writer..."
          :: ([WAct.sleepRetry, WAct.statusMsg "Serial: reconnected (writer)"]
               ++ [WAct.writeDev [3, 4], WAct.flushDev]), .cont)
    ∧ WAct.writeDev [3, 4] ∉ [WAct.sleepRetry, WAct.statusMsg "Serial: reconnected (writer)"] :=
  serial_writer_recv_and_retry.2.2.2.2.1 [3, 4] (fun _ => false)
    [(false, false), (false, true)]
    [WAct.sleepRetry, WAct.statusMsg "Serial: reconnected (writer)"] rfl rfl

/-- If the inner read loop was left by observing stop, a true stop observation
occurs in its trace. -/
theorem readerInner_stopObserved (t : List (Bool × ReadEv)) :
    (readerInner t).2 = InnerExit.stopObserved → ∃ p ∈ t, p.1 = true := by
  induction t with
  | nil => intro h; simp [readerInner] at h
  | cons p rest ih =>
    obtain ⟨stop, ev⟩ := p
    cases stop
    · cases ev with
      | chunk bs =>
        by_cases hl : 0 < bs.length
        · simp only [readerInner, hl, if_true, Bool.false_eq_true, if_false]
          intro h
          obtain ⟨q, hq, hq1⟩ := ih h
          exact ⟨q, List.mem_cons_of_mem _ hq, hq1⟩
        · simp only [readerInner, hl, if_false, Bool.false_eq_true]
          intro h
          obtain ⟨q, hq, hq1⟩ := ih h
          exact ⟨q, List.mem_cons_of_mem _ hq, hq1⟩
      | timedOut =>
        simp only [readerInner, Bool.false_eq_true, if_false]
        intro h
        obtain ⟨q, hq, hq1⟩ := ih h
        exact ⟨q, List.mem_cons_of_mem _ hq, hq1⟩
      | brokenPipe => intro h; simp [readerInner] at h
      | otherErr => intro h; simp [readerInner] at h
    · intro _
      exact ⟨(true, ev), List.mem_cons_self _ _, rfl⟩

/-- C3 helper: A reader run that terminated did so because a true stop
observation occurs in its trace: the thread never terminates on a device
error alone. -/
theorem readerOuter_stopped_has_stop (tr : List OuterIter) :
    (readerOuter tr).2 = RunExit.stopped → outerHasStop tr := by
  induction tr with
  | nil => intro h; simp [readerOuter] at h
  | cons it rest ih =>
    intro h
    simp only [readerOuter] at h
    rcases hInner : (readerInner it.innerTrace).2 with _ | _ | _ <;> rw [hInner] at h
    · exact ⟨it, List.mem_cons_self _ _, Or.inr (readerInner_stopObserved _ hInner)⟩
    · cases hsa : it.stopAfter
      · rw [hsa] at h
        simp only [Bool.false_eq_true, if_false] at h
        cases hok : it.openOk <;> rw [hok] at h <;> simp only [Bool.false_eq_true, if_false, if_true] at h
        · obtain ⟨it', hmem, hp⟩ := ih h
          exact ⟨it', List.mem_cons_of_mem _ hmem, hp⟩
        · obtain ⟨it', hmem, hp⟩ := ih h
          exact ⟨it', List.mem_cons_of_mem _ hmem, hp⟩
      · exact ⟨it, List.mem_cons_self _ _, Or.inl hsa⟩
    · simp at h

/-- C3: When the serial reader's device read fails with broken-pipe (or
any other unexpected error — not a timeout), the inner read loop is left with
a device error and the loop enters the reconnection routine: while stop stays
false, a failed reopen sleeps 1 second and the loop retries, a successful
reopen emits the reconnected status and reading resumes with the rest of the
run; and a reader run can only terminate after a true stop observation —
never on a device error while stop is false. -/
theorem serial_reader_reconnects :
    (∀ rest, readerInner ((false, ReadEv.brokenPipe) :: rest)
        = ([RAct.statusMsg "Serial: disconnected, attempting reconnect..."],
           InnerExit.deviceError))
    ∧ (∀ rest, readerInner ((false, ReadEv.otherErr) :: rest)
        = ([RAct.warnLog], InnerExit.deviceError))
    ∧ (∀ it rest, (readerInner it.innerTrace).2 = InnerExit.deviceError →
        it.stopAfter = false → it.openOk = true →
        readerOuter (it :: rest)
          = ((readerInner it.innerTrace).1
              ++ (RAct.reopenOk :: RAct.statusMsg "Serial: reconnected (reader)"
                   :: (readerOuter rest).1),
             (readerOuter rest).2))
    ∧ (∀ it rest, (readerInner it.innerTrace).2 = InnerExit.deviceError →
        it.stopAfter = false → it.openOk = false →
        readerOuter (it :: rest)
          = ((readerInner it.innerTrace).1 ++ (RAct.sleepRetry :: (readerOuter rest).1),
             (readerOuter rest).2))
    ∧ (∀ tr, (readerOuter tr).2 = RunExit.stopped → outerHasStop tr)
    ∧ reconnectRetrySleepSecs = 1 := by
  refine ⟨fun _ => rfl, fun _ => rfl, ?_, ?_, readerOuter_stopped_has_stop, rfl⟩
  · intro it rest hdev hsa hok
    simp only [readerOuter, hdev, hsa, hok, Bool.false_eq_true, if_false, if_true]
  · intro it rest hdev hsa hok
    simp only [readerOuter, hdev, hsa, hok, Bool.false_eq_true, if_false]

/-- Witness for C3: a broken-pipe read followed by a failed reopen
iteration and then a successful one; the run's actions show the 1 s retry
sleep, the reconnected status, and the resumed read broadcasting the next
chunk, and a stopped run indeed contains a stop observation. -/
theorem serial_reader_reconnects_witness :
    readerOuter
        [⟨[(false, ReadEv.brokenPipe)], false, false⟩,
         ⟨[(false, ReadEv.otherErr)], false, true⟩,
         ⟨[(false, ReadEv.chunk [5]), (true, ReadEv.timedOut)], false, false⟩]
      = ([RAct.statusMsg "Serial: disconnected, attempting reconnect..."]
          ++ (RAct.sleepRetry
               :: (readerOuter
                    [⟨[(false, ReadEv.otherErr)], false, true⟩,
                     ⟨[(false, ReadEv.chunk [5]), (true, ReadEv.timedOut)], false, false⟩]).1),
         (readerOuter
            [⟨[(false, ReadEv.otherErr)], false, true⟩,
             ⟨[(false, ReadEv.chunk [5]), (true, ReadEv.timedOut)], false, false⟩]).2)
    ∧ outerHasStop
        [⟨[(false, ReadEv.brokenPipe)], false, false⟩,
         ⟨[(false, ReadEv.otherErr)], false, true⟩,
         ⟨[(false, ReadEv.chunk [5]), (true, ReadEv.timedOut)], false, false⟩] :=
  ⟨serial_reader_reconnects.2.2.2.1
      ⟨[(false, ReadEv.brokenPipe)], false, false⟩
      [⟨[(false, ReadEv.otherErr)], false, true⟩,
       ⟨[(false, ReadEv.chunk [5]), (true, ReadEv.timedOut)], false, false⟩]
      rfl rfl rfl,
   serial_reader_reconnects.2.2.2.2.1
      [⟨[(false, ReadEv.brokenPipe)], false, false⟩,
       ⟨[(false, ReadEv.otherErr)], false, true⟩,
       ⟨[(false, ReadEv.chunk [5]), (true, ReadEv.timedOut)], false, false⟩]
      rfl⟩
